import Mathlib

/-!
# Verification of the lab_7_llm pipeline against its specification

Shallow embedding of the `lab_7_llm` laboratory pipeline
(`lab_7_llm/main.py` and `lab_7_llm/start.py`): dataset import,
preprocessing of a pandas table, the dataset adapter, the inference glue
code, CSV persistence of predictions, and metric evaluation.

Modelling conventions:
* a pandas `DataFrame` is a list of rows over a list of column names,
  with an explicit row index; a cell is `Option String` where `none`
  models a missing value (`NaN`);
* external ML library calls (dataset download, tokenize/generate/decode,
  `torchinfo.summary`, metric scoring) are parameters of the embedded
  functions: the repository's own control logic around them is embedded
  faithfully;
* Python exceptions of the embedded control flow are modelled with
  `Option`/`Except`.
-/

set_option maxRecDepth 8192

/-- A pandas cell: `none` models a missing value (`NaN`). -/
abbrev Cell := Option String

/-- A pandas `DataFrame`: named columns, a row index, and rows of cells
(each row is positionally aligned with `columns`). -/
structure DataFrame where
  columns : List String
  index : List Nat
  rows : List (List Cell)
deriving DecidableEq

/-- Modelled from the spec: the canonical question column name.
`ColumnNames` lives in `core_utils.llm.raw_data_preprocessor`, which is not
under `src/`; spec §3 and the glossary fix the canonical record as a
`(question, target)` pair. -/
def ColumnNames.QUESTION : String := "question"

/-- Modelled from the spec: the canonical target column name (spec §3). -/
def ColumnNames.TARGET : String := "target"

/-- Modelled from the spec: the prediction column name of the persisted
two-column `(target, prediction)` output file (spec §3, §6). -/
def ColumnNames.PREDICTION : String := "prediction"

/-! ## Dataset importer (`RawDataImporter.obtain`) -/

/-- Outcome of the external `load_dataset(self._hf_name, split='test')`
call: either the network fetch fails, or a dataset object is returned.
`truthy` is the Python truthiness of the returned dataset (an empty
dataset has `len == 0` and is falsy); `conv` is its `to_pandas()` result
when that result is a `pd.DataFrame` (`none` models a non-DataFrame
conversion result). -/
inductive FetchOutcome where
  | netFail
  | fetched (truthy : Bool) (conv : Option DataFrame)
deriving DecidableEq

/-- Errors `obtain` can end with. -/
inductive ObtainError where
  | network
  | typeErr
deriving DecidableEq

/-- `RawDataImporter.obtain`: `qa_dataset = load_dataset(...)`; if the
dataset is truthy, `_raw_data` is set to `to_pandas()` (initially it is
`None`); then `TypeError` is raised unless `_raw_data` is a DataFrame.
A network failure propagates uncaught. -/
def RawDataImporter.obtain (f : FetchOutcome) : Except ObtainError DataFrame :=
  match f with
  | .netFail => Except.error ObtainError.network
  | .fetched truthy conv =>
    match (if truthy then conv else none) with
    | some df => Except.ok df
    | none => Except.error ObtainError.typeErr

/-! ## Preprocessor (`RawDataPreprocessor`) -/

/-- `analyze()`'s result dictionary. -/
structure DatasetStats where
  dataset_number_of_samples : Nat
  dataset_columns : Nat
  dataset_duplicates : Nat
  dataset_empty_rows : Nat
  dataset_sample_min_len : Nat
  dataset_sample_max_len : Nat
deriving DecidableEq

/-- `df.duplicated().sum()`: the number of rows equal to some earlier row
(pandas marks all but the first occurrence). `seen` accumulates the rows
already passed. -/
def dupCountAux (seen : List (List Cell)) : List (List Cell) → Nat
  | [] => 0
  | r :: rs => (if r ∈ seen then 1 else 0) + dupCountAux (r :: seen) rs

/-- `df.duplicated().sum()` over the rows of a table. -/
def dupCount (rows : List (List Cell)) : Nat := dupCountAux [] rows

/-- `df.isna().sum().sum()`: total count of missing cells. -/
def naCount (df : DataFrame) : Nat :=
  (df.rows.map (fun r => r.countP (fun c => c.isNone))).sum

/-- Python `min` over a list (raises `ValueError` on an empty sequence,
modelled by `none`). -/
def minList : List Nat → Option Nat
  | [] => none
  | x :: xs => some (xs.foldl Nat.min x)

/-- Python `max` over a list (raises `ValueError` on an empty sequence,
modelled by `none`). -/
def maxList : List Nat → Option Nat
  | [] => none
  | x :: xs => some (xs.foldl Nat.max x)

/-- The character lengths of the `instruction` field (column position
`ci`) over `df.dropna()`: rows with any missing cell removed. -/
def instrLens (df : DataFrame) (ci : Nat) : List Nat :=
  (df.rows.filter (fun r => r.all (fun c => c.isSome))).map
    (fun r => ((r.getD ci none).getD "").length)

/-- `RawDataPreprocessor.analyze`: row/column counts, duplicate count,
total missing-cell count, and min/max character length of the
`instruction` field of `self._raw_data.dropna()` (rows with any missing
cell removed; `dropna()` is not in place). `none` models the raised
`KeyError` (no `instruction` column) or `ValueError` (`min`/`max` of an
empty sequence). -/
def RawDataPreprocessor.analyze (df : DataFrame) : Option DatasetStats :=
  match df.columns.findIdx? (fun c => c == "instruction") with
  | none => none
  | some ci =>
    match minList (instrLens df ci), maxList (instrLens df ci) with
    | some mn, some mx =>
      some { dataset_number_of_samples := df.rows.length
             dataset_columns := df.columns.length
             dataset_duplicates := dupCount df.rows
             dataset_empty_rows := naCount df
             dataset_sample_min_len := mn
             dataset_sample_max_len := mx }
    | _, _ => none

/-- The preprocessor's state: `_raw_data` and the preprocessed `_data`. -/
structure RawDataPreprocessorState where
  raw_data : DataFrame
  data : Option DataFrame
deriving DecidableEq

/-- `analyze` as an operation on the preprocessor state: all statistics
are computed from copies (`dropna()` without `inplace` returns a new
frame), so the state is returned unchanged. -/
def RawDataPreprocessor.analyzeS (p : RawDataPreprocessorState) :
    RawDataPreprocessorState × Option DatasetStats :=
  (p, RawDataPreprocessor.analyze p.raw_data)

/-- One row after `df.drop(labels, axis=1)`: cells of dropped columns
removed, order of the remaining cells preserved. -/
def dropColsRow (cols : List String) (labels : List String) (row : List Cell) : List Cell :=
  ((cols.zip row).filter (fun cr => !(labels.contains cr.1))).map (fun cr => cr.2)

/-- `df.drop(labels, axis=1)`: `none` models the `KeyError` pandas raises
when some label is not a column. -/
def DataFrame.dropCols (df : DataFrame) (labels : List String) : Option DataFrame :=
  if labels.all (fun c => df.columns.contains c) then
    some { columns := df.columns.filter (fun c => !(labels.contains c))
           index := df.index
           rows := df.rows.map (dropColsRow df.columns labels) }
  else none

/-- `df.rename(columns=m)`: renames matching column labels, leaves the
rest unchanged. -/
def DataFrame.rename (df : DataFrame) (m : List (String × String)) : DataFrame :=
  { df with columns := df.columns.map (fun c => ((m.lookup c).getD c)) }

/-- `df.reset_index(inplace=True, drop=True)`: the index becomes the
contiguous zero-based range. -/
def DataFrame.resetIndex (df : DataFrame) : DataFrame :=
  { df with index := List.range df.rows.length }

/-- `RawDataPreprocessor.transform`: drop the `context`, `category` and
`text` columns, rename `instruction`/`response` to the canonical names,
reset the row index. `none` models the `KeyError` from `drop`. -/
def RawDataPreprocessor.transform (p : RawDataPreprocessorState) :
    Option RawDataPreprocessorState :=
  (p.raw_data.dropCols ["context", "category", "text"]).map (fun d =>
    { p with data := some (DataFrame.resetIndex
        (d.rename [("instruction", ColumnNames.QUESTION),
                   ("response", ColumnNames.TARGET)])) })

/-! ## Dataset adapter (`TaskDataset`) -/

/-- `TaskDataset`: wraps the preprocessed `DataFrame`. -/
structure TaskDataset where
  _data : DataFrame
deriving DecidableEq

/-- `TaskDataset.__len__`: `len(self._data)` is the row count. -/
def TaskDataset.len (d : TaskDataset) : Nat := d._data.rows.length

/-- `TaskDataset.__getitem__`: `tuple([self._data.iloc[index][QUESTION]])`,
a one-element tuple holding the question cell of the indexed row.
`none` models the `IndexError`/`KeyError` for an invalid index or a
missing `question` column. -/
def TaskDataset.getItem (d : TaskDataset) (i : Nat) : Option (List Cell) := do
  let row ← d._data.rows[i]?
  let ci ← d._data.columns.findIdx? (fun c => c == ColumnNames.QUESTION)
  pure [row.getD ci none]

/-! ## Inference pipeline (`LLMPipeline`) -/

/-- `re.sub(r"^.*?\n", "", s)` on the character list: drop everything up
to and including the first newline; `none` when the string has no newline
(the regex does not match and `re.sub` leaves the string unchanged). -/
def stripAux : List Char → Option (List Char)
  | [] => none
  | c :: cs => if c = '\n' then some cs else stripAux cs

/-- `re.sub(r"^.*?\n", "", s)`: the prompt-echo removal applied to each
decoded generation output. -/
def stripFirstLine (s : String) : String :=
  match stripAux s.data with
  | some rest => String.mk rest
  | none => s

/-- `LLMPipeline._infer_batch` with the external
tokenize/generate/decode composite abstracted as the deterministic
per-input function `g`: decode every text of the batch
(`sample_batch[0]`, the collated question strings) and strip the leading
line from each decoded string. -/
def LLMPipeline.inferBatch (g : String → String) (batch : List String) : List String :=
  (batch.map g).map stripFirstLine

/-- `LLMPipeline.analyze_model`: with no loaded model the empty mapping
is returned; otherwise the result of the external `torchinfo.summary`
introspection (a parameter here, `Except` models a raised library
error). -/
def LLMPipeline.analyze_model {π : Type} (model : Option (String → String))
    (summaryResult : Except Unit (List (String × π))) :
    Except Unit (List (String × π)) :=
  match model with
  | none => Except.ok []
  | some _ => summaryResult

/-- `LLMPipeline.infer_sample`: `None` with no loaded model; otherwise
the first element of `_infer_batch([sample])`, returned only when it is a
non-empty string. `Except.error` models the `IndexError` of `[0]` on an
empty batch result. -/
def LLMPipeline.infer_sample (model : Option (String → String))
    (sample : List String) : Except Unit (Option String) :=
  match model with
  | none => Except.ok none
  | some g =>
    match LLMPipeline.inferBatch g sample with
    | [] => Except.error ()
    | p :: _ => Except.ok (if p = "" then none else some p)

/-- `DataLoader(dataset, batch_size)` batching: split a list into
consecutive chunks of size `n` (fuel is the list length, enough for one
unit per produced chunk). -/
def chunksAux {α : Type} : Nat → Nat → List α → List (List α)
  | _, _, [] => []
  | 0, _, l => [l]
  | fuel + 1, n, x :: xs => (x :: xs.take (n - 1)) :: chunksAux fuel n (xs.drop (n - 1))

/-- Consecutive chunks of size `n` of a list. -/
def chunks {α : Type} (n : Nat) (l : List α) : List (List α) :=
  chunksAux l.length n l

/-- Column extraction `df[c]`: `none` models the `KeyError` for a missing
column. -/
def DataFrame.getCol (df : DataFrame) (c : String) : Option (List Cell) :=
  (df.columns.findIdx? (fun c2 => c2 == c)).map
    (fun i => df.rows.map (fun r => r.getD i none))

/-- `LLMPipeline.infer_dataset`: targets are the `target` column of the
wrapped table; questions are batched through `_infer_batch`; the result
pairs each original target with the prediction at the same position
(`pd.DataFrame({TARGET: targets, PREDICTION: predictions})`). `none`
models a raised `KeyError`/tokenizer error (missing column or a
non-string question cell). -/
def LLMPipeline.infer_dataset (g : String → String) (ds : TaskDataset)
    (batchSize : Nat) : Option (List (Cell × String)) := do
  let targets ← ds._data.getCol ColumnNames.TARGET
  let qcells ← ds._data.getCol ColumnNames.QUESTION
  let qs ← qcells.mapM id
  let preds := ((chunks batchSize qs).map (LLMPipeline.inferBatch g)).flatten
  pure (targets.zip preds)

/-! ## CSV persistence (`predictions.to_csv` / `pd.read_csv`)

The predictions table is persisted with `to_csv(PREDICTIONS_PATH,
index=False)` and read back with `pd.read_csv`. Modelled per the pandas
defaults: delimiter `,`, line terminator `\n`, `QUOTE_MINIMAL` quoting
with quote character `"` and doubled inner quotes, `na_rep=''` on write,
and the default NA-token filter on read (dtype inference is outside the
model). -/

/-- `QUOTE_MINIMAL`: a field is quoted when it contains the delimiter,
the quote character, or a line-terminator character. -/
def needsQuote : List Char → Bool
  | [] => false
  | c :: cs => (c = ',' || c = '\"' || c = '\n' || c = '\r') || needsQuote cs

/-- Double every quote character of a field body. -/
def escapeQ : List Char → List Char
  | [] => []
  | c :: cs => if c = '\"' then '\"' :: '\"' :: escapeQ cs else c :: escapeQ cs

/-- Serialize one field (`csv.writer` with `QUOTE_MINIMAL`). -/
def writeField (s : List Char) : List Char :=
  if needsQuote s then '\"' :: (escapeQ s ++ ['\"']) else s

/-- One serialized CSV line of the predictions file: target cell
(`NaN` as the empty field, pandas `na_rep=''`), delimiter, prediction,
line terminator. -/
def rowBytes (r : Cell × String) : List Char :=
  writeField (r.1.getD "").data ++ ',' :: (writeField r.2.data ++ ['\n'])

/-- `predictions.to_csv(path, index=False)`: header line
`target,prediction` followed by one line per row. -/
def writeCsv (rows : List (Cell × String)) : String :=
  String.mk (((some ColumnNames.TARGET, ColumnNames.PREDICTION) :: rows).map rowBytes).flatten

/-- Parse a quoted field body (the opening quote already consumed):
`""` is an escaped quote, a single quote closes the field. -/
def parseQuoted : List Char → List Char × List Char
  | [] => ([], [])
  | c :: cs =>
    if c = '\"' then
      match cs with
      | [] => ([], [])
      | c2 :: cs2 =>
        if c2 = '\"' then
          let pr := parseQuoted cs2
          ('\"' :: pr.1, pr.2)
        else ([], cs)
    else
      let pr := parseQuoted cs
      (c :: pr.1, pr.2)

/-- Parse an unquoted field: everything up to the next delimiter or line
terminator. -/
def parseBare : List Char → List Char × List Char
  | [] => ([], [])
  | c :: cs =>
    if c = ',' ∨ c = '\n' then ([], c :: cs)
    else
      let pr := parseBare cs
      (c :: pr.1, pr.2)

/-- Parse one field, dispatching on an opening quote. -/
def parseField (cs : List Char) : List Char × List Char :=
  match cs with
  | [] => ([], [])
  | c :: rest => if c = '\"' then parseQuoted rest else parseBare (c :: rest)

/-- Parse one record: comma-separated fields (fuel bounds the number of
fields; one unit of fuel per delimiter suffices). -/
def parseRecordF : Nat → List Char → List (List Char) × List Char
  | 0, cs => ([(parseField cs).1], (parseField cs).2)
  | fuel + 1, cs =>
    let f := parseField cs
    if f.2.head? = some ',' then
      let pr := parseRecordF fuel f.2.tail
      (f.1 :: pr.1, pr.2)
    else ([f.1], f.2)

/-- Parse newline-separated records (fuel bounds the number of records). -/
def parseRecordsF : Nat → List Char → List (List (List Char))
  | 0, _ => []
  | fuel + 1, cs =>
    if cs.isEmpty then []
    else
      let pr := parseRecordF fuel cs
      if pr.2.head? = some '\n' then pr.1 :: parseRecordsF fuel pr.2.tail
      else [pr.1]

/-- Parse a CSV document into records of fields. -/
def parseRecords (cs : List Char) : List (List (List Char)) :=
  parseRecordsF (cs.length + 1) cs

/-- The default `read_csv` NA tokens: fields equal to one of these (in
particular the empty field) are read as `NaN`. -/
def naTokens : List String :=
  ["", "#N/A", "#N/A N/A", "#NA", "-1.#IND", "-1.#QNAN", "-NaN", "-nan",
   "1.#IND", "1.#QNAN", "<NA>", "N/A", "NA", "NULL", "NaN", "None",
   "n/a", "nan", "null"]

/-- NA filtering of one read data cell. -/
def readCell (s : String) : Cell :=
  if s ∈ naTokens then none else some s

/-- `pd.read_csv`: first record is the header (kept verbatim), remaining
records are data rows with NA filtering; `none` models the
`EmptyDataError` on an empty file. -/
def readCsvTable (s : String) : Option (List String × List (List Cell)) :=
  match parseRecords s.data with
  | [] => none
  | header :: rows =>
    some (header.map String.mk, rows.map (fun r => r.map (fun f => readCell (String.mk f))))

/-- The `(target, prediction)` pairs the evaluator reads back:
`data[TARGET]` and `data[PREDICTION]` of the parsed file, paired by row
position. `none` models a read or column-lookup error. -/
def readPairs (s : String) : Option (List (Cell × Cell)) := do
  let ht ← readCsvTable s
  let ti ← ht.1.findIdx? (fun c => c == ColumnNames.TARGET)
  let pi ← ht.1.findIdx? (fun c => c == ColumnNames.PREDICTION)
  pure (ht.2.map (fun r => (r.getD ti none, r.getD pi none)))

/-! ## Evaluator (`TaskEvaluator`) -/

/-- The record computed by one `metric.compute(...)` call: the external
scorer returns a mapping holding both a `bleu`-style and a
`rougeL`-style scalar field; `run()` selects one by the metric's name. -/
structure MetricResult (σ : Type) where
  bleu : σ
  rougeL : σ
deriving DecidableEq

/-- Python dict assignment `d[k] = v`: replace the entry of an existing
key in place, otherwise append. -/
def insertMetric {σ : Type} : List (String × σ) → String → σ → List (String × σ)
  | [], k, v => [(k, v)]
  | kv :: rest, k, v =>
    if kv.1 == k then (k, v) :: rest else kv :: insertMetric rest k v

/-- Python dict lookup `d[k]`. -/
def dictGet? {σ : Type} : List (String × σ) → String → Option σ
  | [], _ => none
  | kv :: rest, k => if kv.1 == k then some kv.2 else dictGet? rest k

/-- `TaskEvaluator.run`: read the predictions file, extract the
prediction and target columns, compute every configured metric over the
two sequences (the external scorer is the parameter `compute`), and
build the name-to-scalar dictionary, selecting the `bleu` field for the
metric named `bleu` and the `rougeL` field otherwise. The `Option`
result mirrors the declared `dict | None` return type; `Except.error`
models a raised read/lookup error. -/
def TaskEvaluator.run {σ : Type}
    (compute : String → List Cell → List Cell → MetricResult σ)
    (metrics : List String) (file : String) :
    Except Unit (Option (List (String × σ))) :=
  match readCsvTable file with
  | none => Except.error ()
  | some ht =>
    match ht.1.findIdx? (fun c => c == ColumnNames.PREDICTION),
          ht.1.findIdx? (fun c => c == ColumnNames.TARGET) with
    | some pIdx, some tIdx =>
      let predictions := ht.2.map (fun r => r.getD pIdx none)
      let references := ht.2.map (fun r => r.getD tIdx none)
      Except.ok (some (metrics.foldl (fun d m =>
        let c := compute m predictions references
        insertMetric d m (if m = "bleu" then c.bleu else c.rougeL)) []))
    | _, _ => Except.error ()

/-- What may follow a serialized field inside a CSV document: the
delimiter, the line terminator, or the end of the document. -/
def sepHead (r : List Char) : Prop :=
  r.head? = some ',' ∨ r.head? = some '\n' ∨ r.head? = none

/-! ## String helper lemmas -/

/-- Rebuilding a string from its character list is the identity. -/
theorem string_mk_data (s : String) : String.mk s.data = s := rfl

/-- The character list of a concatenation. -/
theorem string_data_append (s t : String) : (s ++ t).data = s.data ++ t.data := rfl

/-- The regex does not match a newline-free string. -/
theorem stripAux_of_not_mem (l : List Char) (h : '\n' ∉ l) : stripAux l = none := by
  induction l with
  | nil => rfl
  | cons c cs ih =>
    simp only [List.mem_cons, not_or] at h
    simp [stripAux, Ne.symm h.1, ih h.2]

/-- The regex match consumes exactly the newline-free prefix and the
first newline. -/
theorem stripAux_append (a b : List Char) (h : '\n' ∉ a) :
    stripAux (a ++ '\n' :: b) = some b := by
  induction a with
  | nil => simp [stripAux]
  | cons c cs ih =>
    simp only [List.mem_cons, not_or] at h
    simp [stripAux, Ne.symm h.1, ih h.2]

/-- A string without a newline is left unchanged by the echo stripper. -/
theorem stripFirstLine_no_newline (s : String) (h : '\n' ∉ s.data) :
    stripFirstLine s = s := by
  unfold stripFirstLine
  rw [stripAux_of_not_mem s.data h]

/-- Everything up to and including the first newline is removed. -/
theorem stripFirstLine_append (a b : String) (h : '\n' ∉ a.data) :
    stripFirstLine (a ++ "\n" ++ b) = b := by
  unfold stripFirstLine
  have hd : (a ++ "\n" ++ b).data = a.data ++ '\n' :: b.data := by
    rw [string_data_append, string_data_append]
    simp
  rw [hd, stripAux_append a.data b.data h]

/-! ## Claims C2, C4, C5, C7, C8, C10 -/

/-- C2: `_infer_batch` removes from each decoded output everything up to
and including the first newline (a newline-free string is unchanged); in
particular, with a model deterministically producing `"echo\n<question>"`
on a batch of three questions, the predictions are the bare question
texts, in order. -/
theorem claim_C2_infer_batch_strips_first_line :
    (∀ s : String, '\n' ∉ s.data → stripFirstLine s = s) ∧
    (∀ a b : String, '\n' ∉ a.data → stripFirstLine (a ++ "\n" ++ b) = b) ∧
    (∀ q1 q2 q3 : String,
      LLMPipeline.inferBatch (fun q => "echo\n" ++ q) [q1, q2, q3] = [q1, q2, q3]) := by
  refine ⟨stripFirstLine_no_newline, stripFirstLine_append, ?_⟩
  intro q1 q2 q3
  have h : ∀ q : String, stripFirstLine ("echo\n" ++ q) = q := by
    intro q
    have he : ("echo\n" : String) ++ q = "echo" ++ "\n" ++ q := by rfl
    rw [he, stripFirstLine_append "echo" q (by decide)]
  simp [LLMPipeline.inferBatch, h]

/-- C2 witness: the stripper and the echo scenario at concrete strings. -/
theorem claim_C2_witness :
    stripFirstLine "hello" = "hello" ∧
    stripFirstLine ("prompt" ++ "\n" ++ "answer") = "answer" ∧
    LLMPipeline.inferBatch (fun q => "echo\n" ++ q) ["a", "b", "c"] = ["a", "b", "c"] :=
  ⟨claim_C2_infer_batch_strips_first_line.1 "hello" (by decide),
   claim_C2_infer_batch_strips_first_line.2.1 "prompt" "answer" (by decide),
   claim_C2_infer_batch_strips_first_line.2.2 "a" "b" "c"⟩

/-- C4: on a pipeline with no loaded model, `analyze_model()` returns the
empty mapping and `infer_sample` returns `None`, for every sample and
whatever the external introspection would have produced; neither
operation raises in that state (`Except.ok` results). -/
theorem claim_C4_no_model_degraded_results :
    (∀ (π : Type) (summaryResult : Except Unit (List (String × π))),
      LLMPipeline.analyze_model (none : Option (String → String)) summaryResult =
        Except.ok []) ∧
    (∀ sample : List String,
      LLMPipeline.infer_sample none sample = Except.ok none) :=
  ⟨fun _ _ => rfl, fun _ => rfl⟩

/-- C5 counterexample: a falsy (empty) fetched dataset whose
`to_pandas()` conversion nevertheless is a DataFrame makes `obtain`
raise the type error, so the type error is not raised *exactly* when the
dataset cannot be coerced to tabular form. -/
theorem claim_C5_counterexample :
    RawDataImporter.obtain
        (FetchOutcome.fetched false (some ⟨["instruction"], [], []⟩)) =
      Except.error ObtainError.typeErr ∧
    (some (⟨["instruction"], [], []⟩ : DataFrame)) ≠ none :=
  ⟨rfl, by decide⟩

/-- C5 amended: `obtain` raises the type error exactly when the fetched
dataset is falsy (e.g. empty) or its conversion is not a DataFrame; on
success the raw-data field holds the converted test split; a network
failure propagates as-is. -/
theorem claim_C5_obtain_amended :
    (∀ (truthy : Bool) (conv : Option DataFrame),
      RawDataImporter.obtain (FetchOutcome.fetched truthy conv) =
          Except.error ObtainError.typeErr ↔ (truthy = false ∨ conv = none)) ∧
    (∀ (truthy : Bool) (conv : Option DataFrame) (df : DataFrame),
      RawDataImporter.obtain (FetchOutcome.fetched truthy conv) = Except.ok df →
        conv = some df ∧ truthy = true) ∧
    RawDataImporter.obtain FetchOutcome.netFail = Except.error ObtainError.network := by
  refine ⟨?_, ?_, rfl⟩
  · intro truthy conv
    cases truthy <;> cases conv <;> simp [RawDataImporter.obtain]
  · intro truthy conv df h
    cases truthy <;> cases conv <;> simp_all [RawDataImporter.obtain]

/-- C5 witness: the amended equivalence and the success contract at
concrete fetch outcomes. -/
theorem claim_C5_obtain_amended_witness :
    (RawDataImporter.obtain
        (FetchOutcome.fetched true (none : Option DataFrame)) =
          Except.error ObtainError.typeErr ↔
      ((true : Bool) = false ∨ (none : Option DataFrame) = none)) ∧
    ((some (⟨["instruction"], [0], [[some "q"]]⟩ : DataFrame) =
        some (⟨["instruction"], [0], [[some "q"]]⟩ : DataFrame)) ∧ (true : Bool) = true) :=
  ⟨claim_C5_obtain_amended.1 true none,
   claim_C5_obtain_amended.2.1 true (some ⟨["instruction"], [0], [[some "q"]]⟩)
     ⟨["instruction"], [0], [[some "q"]]⟩ rfl⟩

/-- Marked duplicates never exceed the number of rows scanned. -/
theorem dupCountAux_le (seen : List (List Cell)) (l : List (List Cell)) :
    dupCountAux seen l ≤ l.length := by
  induction l generalizing seen with
  | nil => exact Nat.le_refl 0
  | cons r rs ih =>
    simp only [dupCountAux, List.length_cons]
    have hr := ih (r :: seen)
    by_cases h : r ∈ seen <;> simp [h] <;> omega

/-- Folding `min` from a smaller seed stays below folding `max` from a
larger seed. -/
theorem foldl_min_le_foldl_max (xs : List Nat) (a b : Nat) (h : a ≤ b) :
    xs.foldl Nat.min a ≤ xs.foldl Nat.max b := by
  induction xs generalizing a b with
  | nil => exact h
  | cons x xs ih =>
    exact ih _ _ (le_trans (Nat.min_le_left a x) (le_trans h (Nat.le_max_left b x)))

/-- C7: whenever `analyze()` succeeds, the returned statistics satisfy
duplicate count ≤ row count, missing-value count ≥ 0, and minimum
instruction length ≤ maximum instruction length. -/
theorem claim_C7_analyze_stats (df : DataFrame) (s : DatasetStats)
    (h : RawDataPreprocessor.analyze df = some s) :
    s.dataset_duplicates ≤ s.dataset_number_of_samples ∧
    0 ≤ s.dataset_empty_rows ∧
    s.dataset_sample_min_len ≤ s.dataset_sample_max_len := by
  unfold RawDataPreprocessor.analyze at h
  cases hci : df.columns.findIdx? (fun c => c == "instruction") with
  | none => rw [hci] at h; simp at h
  | some ci =>
    simp only [hci] at h
    cases hl : instrLens df ci with
    | nil => rw [hl] at h; simp [minList] at h
    | cons x xs =>
      rw [hl] at h
      simp only [minList, maxList, Option.some.injEq] at h
      subst h
      refine ⟨dupCountAux_le [] df.rows, Nat.zero_le _, ?_⟩
      exact foldl_min_le_foldl_max xs x x (Nat.le_refl x)

/-- C7 witness: a one-row table with a complete row. -/
theorem claim_C7_witness :
    RawDataPreprocessor.analyze ⟨["instruction"], [0], [[some "ab"]]⟩ =
      some ⟨1, 1, 0, 0, 2, 2⟩ ∧
    (0 : Nat) ≤ 1 ∧ (0 : Nat) ≤ 0 ∧ (2 : Nat) ≤ 2 := by
  refine ⟨by decide, ?_⟩
  have h := claim_C7_analyze_stats ⟨["instruction"], [0], [[some "ab"]]⟩
    ⟨1, 1, 0, 0, 2, 2⟩ (by decide)
  exact ⟨h.1, h.2.1, h.2.2⟩

/-- C8: the dataset adapter's reported length is the wrapped table's row
count, and retrieval at a valid index is the one-element tuple holding
only the question cell of that row. -/
theorem claim_C8_task_dataset_len_getitem (d : TaskDataset) (i : Nat)
    (row : List Cell) (ci : Nat)
    (hrow : d._data.rows[i]? = some row)
    (hci : d._data.columns.findIdx? (fun c => c == ColumnNames.QUESTION) = some ci) :
    TaskDataset.len d = d._data.rows.length ∧
    TaskDataset.getItem d i = some [row.getD ci none] := by
  refine ⟨rfl, ?_⟩
  simp [TaskDataset.getItem, hrow, hci]

/-- C8 witness: a concrete two-row canonical table. -/
theorem claim_C8_witness :
    TaskDataset.len ⟨⟨["question", "target"], [0, 1],
        [[some "q0", some "t0"], [some "q1", some "t1"]]⟩⟩ = 2 ∧
    TaskDataset.getItem ⟨⟨["question", "target"], [0, 1],
        [[some "q0", some "t0"], [some "q1", some "t1"]]⟩⟩ 1 = some [some "q1"] := by
  have h := claim_C8_task_dataset_len_getitem
    ⟨⟨["question", "target"], [0, 1], [[some "q0", some "t0"], [some "q1", some "t1"]]⟩⟩
    1 [some "q1", some "t1"] 0 (by decide) (by decide)
  exact ⟨h.1, h.2⟩

/-- C10: `analyze()` leaves the preprocessor state, in particular the raw
table, unchanged (`dropna()` operates on a copy), and re-running the
analysis on the resulting state yields the same statistics. -/
theorem claim_C10_analyze_frame (p : RawDataPreprocessorState) :
    (RawDataPreprocessor.analyzeS p).1 = p ∧
    (RawDataPreprocessor.analyzeS p).1.raw_data = p.raw_data ∧
    (RawDataPreprocessor.analyzeS ((RawDataPreprocessor.analyzeS p).1)).2 =
      (RawDataPreprocessor.analyzeS p).2 :=
  ⟨rfl, rfl, rfl⟩

/-! ## Claim C1: `transform()` -/

/-- C1: on every non-empty table with the raw schema (the three dropped
columns present, `instruction` and `response` the remaining columns),
`transform()` succeeds and the preprocessed table has exactly the two
canonical columns, a contiguous zero-based index, and rows in the
original order (row `i` is row `i` of the raw table minus the dropped
cells). -/
theorem claim_C1_transform_canonical (p : RawDataPreprocessorState)
    (hkeep : p.raw_data.columns.filter
        (fun c => !((["context", "category", "text"] : List String).contains c)) =
      ["instruction", "response"])
    (hdrop : (["context", "category", "text"] : List String).all
        (fun c => p.raw_data.columns.contains c) = true)
    (hne : p.raw_data.rows ≠ []) :
    ∃ d : DataFrame,
      RawDataPreprocessor.transform p = some { p with data := some d } ∧
      d.columns = [ColumnNames.QUESTION, ColumnNames.TARGET] ∧
      d.index = List.range d.rows.length ∧
      d.rows = p.raw_data.rows.map
        (dropColsRow p.raw_data.columns ["context", "category", "text"]) ∧
      d.rows.length = p.raw_data.rows.length ∧
      d.rows ≠ [] := by
  refine ⟨?_, ?_, ?_, ?_, ?_, ?_, ?_⟩
  · exact DataFrame.resetIndex
      ((⟨p.raw_data.columns.filter
          (fun c => !((["context", "category", "text"] : List String).contains c)),
        p.raw_data.index,
        p.raw_data.rows.map (dropColsRow p.raw_data.columns ["context", "category", "text"])⟩ :
          DataFrame).rename
        [("instruction", ColumnNames.QUESTION), ("response", ColumnNames.TARGET)])
  · unfold RawDataPreprocessor.transform DataFrame.dropCols
    rw [if_pos hdrop]
    rfl
  · show (p.raw_data.columns.filter
        (fun c => !((["context", "category", "text"] : List String).contains c))).map
        (fun c => ((([("instruction", ColumnNames.QUESTION),
          ("response", ColumnNames.TARGET)] : List (String × String)).lookup c).getD c)) =
      [ColumnNames.QUESTION, ColumnNames.TARGET]
    rw [hkeep]
    decide
  · simp [DataFrame.resetIndex, DataFrame.rename]
  · simp [DataFrame.resetIndex, DataFrame.rename]
  · simp [DataFrame.resetIndex, DataFrame.rename]
  · simp [DataFrame.resetIndex, DataFrame.rename, hne]

/-- C1 witness: a concrete one-row raw table of the five-column schema. -/
theorem claim_C1_witness :
    ∃ d : DataFrame,
      RawDataPreprocessor.transform
          ⟨⟨["instruction", "context", "response", "category", "text"], [7],
            [[some "q", some "c", some "r", some "cat", some "t"]]⟩, none⟩ =
        some { raw_data := ⟨["instruction", "context", "response", "category", "text"], [7],
                 [[some "q", some "c", some "r", some "cat", some "t"]]⟩,
               data := some d } ∧
      d.columns = [ColumnNames.QUESTION, ColumnNames.TARGET] ∧
      d.index = List.range d.rows.length ∧
      d.rows = [[some "q", some "c", some "r", some "cat", some "t"]].map
        (dropColsRow ["instruction", "context", "response", "category", "text"]
          ["context", "category", "text"]) ∧
      d.rows.length = 1 ∧
      d.rows ≠ [] := by
  have h := claim_C1_transform_canonical
    ⟨⟨["instruction", "context", "response", "category", "text"], [7],
      [[some "q", some "c", some "r", some "cat", some "t"]]⟩, none⟩
    (by decide) (by decide) (by decide)
  exact h

/-! ## Claim C9: `run()` always returns a dictionary -/

/-- C9: whenever the evaluator's `run()` returns (rather than raising),
the returned value is a dictionary, never `None`, and it is the empty
dictionary for an empty metric list; hence the driver's final
`assert result is not None` cannot fail once `run()` has returned. -/
theorem claim_C9_run_never_none {σ : Type}
    (compute : String → List Cell → List Cell → MetricResult σ)
    (metrics : List String) (file : String)
    (r : Option (List (String × σ)))
    (h : TaskEvaluator.run compute metrics file = Except.ok r) :
    r ≠ none ∧ (metrics = [] → r = some []) := by
  unfold TaskEvaluator.run at h
  cases hread : readCsvTable file with
  | none => rw [hread] at h; exact absurd h (by simp)
  | some ht =>
    simp only [hread] at h
    cases hp : ht.1.findIdx? (fun c => c == ColumnNames.PREDICTION) with
    | none => simp only [hp] at h; exact Except.noConfusion h
    | some pIdx =>
      cases htg : ht.1.findIdx? (fun c => c == ColumnNames.TARGET) with
      | none => simp only [hp, htg] at h; exact Except.noConfusion h
      | some tIdx =>
        simp only [hp, htg, Except.ok.injEq] at h
        subst h
        exact ⟨by simp, fun hm => by simp [hm]⟩

/-- C9 witness: a concrete run over a two-line predictions file. -/
theorem claim_C9_witness :
    TaskEvaluator.run (fun _ _ _ => MetricResult.mk (1 : Nat) 2) ["bleu"]
        "target,prediction\nt,p\n" =
      Except.ok (some [("bleu", 1)]) ∧
    (some [(("bleu" : String), (1 : Nat))]) ≠ none ∧
    ((["bleu"] : List String) = [] → some [(("bleu" : String), (1 : Nat))] = some []) := by
  have hrun : TaskEvaluator.run (fun _ _ _ => MetricResult.mk (1 : Nat) 2) ["bleu"]
      "target,prediction\nt,p\n" = Except.ok (some [("bleu", 1)]) := by rfl
  have h := claim_C9_run_never_none (fun _ _ _ => MetricResult.mk (1 : Nat) 2) ["bleu"]
    "target,prediction\nt,p\n" (some [("bleu", 1)]) hrun
  exact ⟨hrun, h.1, h.2⟩

/-! ## Claim C3: metric-name-based scalar selection in `run()` -/

/-- Assigning a key makes it retrievable with the assigned value. -/
theorem dictGet?_insertMetric_self {σ : Type} (d : List (String × σ)) (k : String) (v : σ) :
    dictGet? (insertMetric d k v) k = some v := by
  induction d with
  | nil => simp [insertMetric, dictGet?]
  | cons kv rest ih =>
    by_cases h : kv.1 = k
    · simp [insertMetric, dictGet?, h]
    · simp [insertMetric, dictGet?, h, ih]

/-- Assigning a key leaves other keys' values unchanged. -/
theorem dictGet?_insertMetric_ne {σ : Type} (d : List (String × σ)) (k k2 : String) (v : σ)
    (h : k2 ≠ k) : dictGet? (insertMetric d k v) k2 = dictGet? d k2 := by
  induction d with
  | nil => simp [insertMetric, dictGet?, Ne.symm h]
  | cons kv rest ih =>
    by_cases hk : kv.1 = k
    · subst hk
      simp [insertMetric, dictGet?, Ne.symm h, h]
    · by_cases hk2 : kv.1 = k2 <;> simp [insertMetric, dictGet?, hk, hk2, h, ih]

/-- The keys after an assignment are the old keys plus the assigned key. -/
theorem keys_insertMetric_mem {σ : Type} (d : List (String × σ)) (k m : String) (v : σ) :
    m ∈ (insertMetric d k v).map Prod.fst ↔ m ∈ d.map Prod.fst ∨ m = k := by
  induction d with
  | nil => simp [insertMetric]
  | cons kv rest ih =>
    by_cases h : kv.1 = k
    · subst h
      simp [insertMetric]
      tauto
    · simp [insertMetric, h, ih]
      tauto

/-- Assignment preserves key uniqueness. -/
theorem keys_insertMetric_nodup {σ : Type} (d : List (String × σ)) (k : String) (v : σ)
    (h : (d.map Prod.fst).Nodup) : ((insertMetric d k v).map Prod.fst).Nodup := by
  induction d with
  | nil => simp [insertMetric]
  | cons kv rest ih =>
    simp only [List.map_cons, List.nodup_cons] at h
    by_cases hk : kv.1 = k
    · have he : insertMetric (kv :: rest) k v = (k, v) :: rest := by
        simp [insertMetric, hk]
      rw [he, List.map_cons, List.nodup_cons]
      exact ⟨hk ▸ h.1, h.2⟩
    · have he : insertMetric (kv :: rest) k v = kv :: insertMetric rest k v := by
        simp [insertMetric, hk]
      rw [he, List.map_cons, List.nodup_cons]
      exact ⟨fun hm => ((keys_insertMetric_mem rest k kv.1 v).mp hm).elim h.1 hk,
             ih h.2⟩

/-- Keys outside the assigned list are looked up in the initial dict. -/
theorem build_get_notmem {σ : Type} (f : String → σ) (ms : List String)
    (d : List (String × σ)) (m : String) (hm : m ∉ ms) :
    dictGet? (ms.foldl (fun d2 k => insertMetric d2 k (f k)) d) m = dictGet? d m := by
  induction ms generalizing d with
  | nil => rfl
  | cons k ks ih =>
    simp only [List.foldl_cons]
    have h1 : m ∉ ks := fun h => hm (List.mem_cons_of_mem _ h)
    have h2 : m ≠ k := fun h => hm (h ▸ List.mem_cons_self _ _)
    rw [ih _ h1, dictGet?_insertMetric_ne _ _ _ _ h2]

/-- Every listed key ends up mapped to its computed value. -/
theorem build_get_mem {σ : Type} (f : String → σ) (ms : List String)
    (d : List (String × σ)) (m : String) (hm : m ∈ ms) :
    dictGet? (ms.foldl (fun d2 k => insertMetric d2 k (f k)) d) m = some (f m) := by
  induction ms generalizing d with
  | nil => cases hm
  | cons k ks ih =>
    simp only [List.foldl_cons]
    by_cases hks : m ∈ ks
    · exact ih _ hks
    · have hk : m = k := by
        rcases List.mem_cons.mp hm with h | h
        · exact h
        · exact absurd h hks
      subst hk
      rw [build_get_notmem _ _ _ _ hks, dictGet?_insertMetric_self]

/-- The built dictionary's key set is the initial keys plus the listed
keys. -/
theorem build_keys_mem {σ : Type} (f : String → σ) (ms : List String)
    (d : List (String × σ)) (m : String) :
    m ∈ ((ms.foldl (fun d2 k => insertMetric d2 k (f k)) d).map Prod.fst) ↔
      m ∈ d.map Prod.fst ∨ m ∈ ms := by
  induction ms generalizing d with
  | nil => simp
  | cons k ks ih =>
    simp only [List.foldl_cons, ih, keys_insertMetric_mem, List.mem_cons]
    tauto

/-- Building the dictionary preserves key uniqueness. -/
theorem build_keys_nodup {σ : Type} (f : String → σ) (ms : List String)
    (d : List (String × σ)) (h : (d.map Prod.fst).Nodup) :
    ((ms.foldl (fun d2 k => insertMetric d2 k (f k)) d).map Prod.fst).Nodup := by
  induction ms generalizing d with
  | nil => exact h
  | cons k ks ih =>
    simp only [List.foldl_cons]
    exact ih _ (keys_insertMetric_nodup _ _ _ h)

/-- C3: on a well-formed predictions file, `run()` returns a dictionary
with exactly one entry per configured metric, whose value is the single
scalar selected by the metric's name: the `bleu` field of the computed
result for the metric named `bleu`, the `rougeL` field for every other
metric. -/
theorem claim_C3_run_selects_scalar_by_name {σ : Type}
    (compute : String → List Cell → List Cell → MetricResult σ)
    (metrics : List String) (file : String)
    (header : List String) (rows : List (List Cell)) (pIdx tIdx : Nat)
    (hread : readCsvTable file = some (header, rows))
    (hp : header.findIdx? (fun c => c == ColumnNames.PREDICTION) = some pIdx)
    (htg : header.findIdx? (fun c => c == ColumnNames.TARGET) = some tIdx) :
    ∃ d : List (String × σ),
      TaskEvaluator.run compute metrics file = Except.ok (some d) ∧
      (∀ m, m ∈ d.map Prod.fst ↔ m ∈ metrics) ∧
      (d.map Prod.fst).Nodup ∧
      (∀ m ∈ metrics,
        dictGet? d m = some
          (if m = "bleu"
            then (compute m (rows.map (fun r => r.getD pIdx none))
                    (rows.map (fun r => r.getD tIdx none))).bleu
            else (compute m (rows.map (fun r => r.getD pIdx none))
                    (rows.map (fun r => r.getD tIdx none))).rougeL)) := by
  refine ⟨metrics.foldl (fun d2 k => insertMetric d2 k
      (if k = "bleu"
        then (compute k (rows.map (fun r => r.getD pIdx none))
                (rows.map (fun r => r.getD tIdx none))).bleu
        else (compute k (rows.map (fun r => r.getD pIdx none))
                (rows.map (fun r => r.getD tIdx none))).rougeL)) [], ?_, ?_, ?_, ?_⟩
  · unfold TaskEvaluator.run
    simp only [hread, hp, htg]
  · intro m
    simpa using build_keys_mem _ metrics [] m
  · exact build_keys_nodup _ metrics [] (by simp)
  · intro m hm
    exact build_get_mem _ metrics [] m hm

/-- C3 witness: a concrete two-metric run over a two-line predictions
file. -/
theorem claim_C3_witness :
    ∃ d : List (String × Nat),
      TaskEvaluator.run
          (fun m _ _ => if m = "bleu" then MetricResult.mk 3 4 else MetricResult.mk 5 6)
          ["bleu", "rouge"] "target,prediction\nt,p\n" = Except.ok (some d) ∧
      (∀ m, m ∈ d.map Prod.fst ↔ m ∈ (["bleu", "rouge"] : List String)) ∧
      (d.map Prod.fst).Nodup ∧
      (∀ m ∈ (["bleu", "rouge"] : List String),
        dictGet? d m = some
          (if m = "bleu"
            then ((fun (m : String) (_ _ : List Cell) =>
                if m = "bleu" then MetricResult.mk 3 4 else MetricResult.mk 5 6) m
                  ([[some "t", some "p"]].map (fun r => r.getD 1 none))
                  ([[some "t", some "p"]].map (fun r => r.getD 0 none))).bleu
            else ((fun (m : String) (_ _ : List Cell) =>
                if m = "bleu" then MetricResult.mk 3 4 else MetricResult.mk 5 6) m
                  ([[some "t", some "p"]].map (fun r => r.getD 1 none))
                  ([[some "t", some "p"]].map (fun r => r.getD 0 none))).rougeL)) :=
  claim_C3_run_selects_scalar_by_name
    (fun m _ _ => if m = "bleu" then MetricResult.mk 3 4 else MetricResult.mk 5 6)
    ["bleu", "rouge"] "target,prediction\nt,p\n"
    ["target", "prediction"] [[some "t", some "p"]] 1 0
    (by rfl) (by rfl) (by rfl)

/-! ## Claim C6: CSV round-trip of the predictions table -/

/-- Parsing a quoted field body undoes quote escaping, provided the
closing quote is not followed by another quote (true after a
`QUOTE_MINIMAL` field, which is followed by a separator or the end). -/
theorem parseQuoted_escape (s r : List Char) (h : r.head? ≠ some '\"') :
    parseQuoted (escapeQ s ++ '\"' :: r) = (s, r) := by
  induction s with
  | nil =>
    cases r with
    | nil => rfl
    | cons c2 cs2 =>
      have hc : ¬ c2 = '\"' := by
        intro he
        exact h (by simp [he])
      simp [escapeQ, parseQuoted, hc]
  | cons c cs ih =>
    by_cases hc : c = '\"'
    · subst hc
      simp [escapeQ, parseQuoted, ih]
    · rw [show escapeQ (c :: cs) ++ '\"' :: r = c :: (escapeQ cs ++ '\"' :: r) from by
        simp [escapeQ, hc]]
      rw [parseQuoted.eq_def]
      simp [hc, ih]

/-- Parsing a bare field stops exactly at the separator. -/
theorem parseBare_append (a r : List Char) (hq : needsQuote a = false)
    (h : sepHead r) : parseBare (a ++ r) = (a, r) := by
  induction a with
  | nil =>
    cases r with
    | nil => rfl
    | cons c2 cs2 =>
      rcases h with h | h | h
      · simp only [List.head?_cons, Option.some.injEq] at h
        simp [parseBare, h]
      · simp only [List.head?_cons, Option.some.injEq] at h
        simp [parseBare, h]
      · simp at h
  | cons c cs ih =>
    simp only [needsQuote, Bool.or_eq_false_iff] at hq
    have h1 : ¬ (c = ',' ∨ c = '\n') := by
      intro hor
      rcases hor with hc | hc <;> (subst hc; simp at hq)
    rw [List.cons_append, parseBare.eq_def]
    simp only [if_neg h1]
    rw [ih hq.2]

/-- Parsing a serialized field returns the field and the unread rest. -/
theorem parseField_writeField (a r : List Char) (h : sepHead r) :
    parseField (writeField a ++ r) = (a, r) := by
  cases hq : needsQuote a with
  | true =>
    have hr : r.head? ≠ some '\"' := by
      rcases h with h | h | h <;> simp [h]
    have hshape : writeField a ++ r = '\"' :: (escapeQ a ++ '\"' :: r) := by
      simp [writeField, hq]
    rw [hshape]
    simp [parseField, parseQuoted_escape a r hr]
  | false =>
    have hshape : writeField a ++ r = a ++ r := by
      simp [writeField, hq]
    rw [hshape]
    cases a with
    | nil =>
      cases r with
      | nil => rfl
      | cons c2 cs2 =>
        rcases h with h | h | h
        · simp only [List.head?_cons, Option.some.injEq] at h
          subst h
          simp [parseField, parseBare]
        · simp only [List.head?_cons, Option.some.injEq] at h
          subst h
          simp [parseField, parseBare]
        · simp at h
    | cons c cs =>
      have hc : ¬ c = '\"' := by
        intro he
        subst he
        simp [needsQuote] at hq
      rw [List.cons_append, parseField.eq_def]
      simp only [if_neg hc]
      rw [← List.cons_append]
      exact parseBare_append (c :: cs) r hq h

/-- A record's last field: parsing stops at the line terminator,
whatever the remaining fuel. -/
theorem parseRecordF_last (g : Nat) (b rest : List Char) :
    parseRecordF g (writeField b ++ '\n' :: rest) = ([b], '\n' :: rest) := by
  have hf := parseField_writeField b ('\n' :: rest) (Or.inr (Or.inl rfl))
  cases g with
  | zero => simp [parseRecordF, hf]
  | succ g2 => simp [parseRecordF, hf]

/-- Parsing a serialized two-field record consumes both fields and stops
at the line terminator. -/
theorem parseRecordF_two (g : Nat) (a b rest : List Char) :
    parseRecordF (g + 1) (writeField a ++ ',' :: (writeField b ++ '\n' :: rest)) =
      ([a, b], '\n' :: rest) := by
  have hf := parseField_writeField a (',' :: (writeField b ++ '\n' :: rest)) (Or.inl rfl)
  simp [parseRecordF, hf, parseRecordF_last g b rest]

/-- No records in an empty document. -/
theorem parseRecordsF_nil (fuel : Nat) : parseRecordsF fuel [] = [] := by
  cases fuel <;> rfl

/-- One unfolding step of the record-list parser. -/
theorem parseRecordsF_succ (fuel : Nat) (cs : List Char) :
    parseRecordsF (fuel + 1) cs =
      if cs.isEmpty then []
      else
        if (parseRecordF fuel cs).2.head? = some '\n' then
          (parseRecordF fuel cs).1 :: parseRecordsF fuel (parseRecordF fuel cs).2.tail
        else [(parseRecordF fuel cs).1] := rfl

/-- A serialized line is at least two characters long. -/
theorem rowBytes_length_ge (r : Cell × String) : 2 ≤ (rowBytes r).length := by
  simp only [rowBytes, List.length_append, List.length_cons, List.length_singleton]
  omega

/-- Parsing the concatenation of serialized lines recovers every line's
two fields, given fuel beyond the document length. -/
theorem parseRecordsF_join (rs : List (Cell × String)) :
    ∀ fuel, (rs.map rowBytes).flatten.length < fuel →
      parseRecordsF fuel (rs.map rowBytes).flatten =
        rs.map (fun r => [(r.1.getD "").data, r.2.data]) := by
  induction rs with
  | nil =>
    intro fuel _
    simp [parseRecordsF_nil]
  | cons r rs2 ih =>
    intro fuel hlen
    rw [List.map_cons, List.flatten_cons] at hlen ⊢
    have h2 := rowBytes_length_ge r
    rw [List.length_append] at hlen
    obtain ⟨g, rfl⟩ : ∃ g, fuel = (g + 1) + 1 := ⟨fuel - 2, by omega⟩
    have hne : (rowBytes r ++ (rs2.map rowBytes).flatten).isEmpty = false := by
      cases hcs : rowBytes r ++ (rs2.map rowBytes).flatten with
      | nil =>
        have hl0 := congrArg List.length hcs
        rw [List.length_append] at hl0
        simp only [List.length_nil] at hl0
        omega
      | cons c cs2 => rfl
    have hshape : rowBytes r ++ (rs2.map rowBytes).flatten =
        writeField (r.1.getD "").data ++
          ',' :: (writeField r.2.data ++ '\n' :: (rs2.map rowBytes).flatten) := by
      simp [rowBytes]
    have hrec : parseRecordF (g + 1) (rowBytes r ++ (rs2.map rowBytes).flatten) =
        ([(r.1.getD "").data, r.2.data], '\n' :: (rs2.map rowBytes).flatten) := by
      rw [hshape]
      exact parseRecordF_two g _ _ _
    have hstep : parseRecordsF ((g + 1) + 1) (rowBytes r ++ (rs2.map rowBytes).flatten) =
        [(r.1.getD "").data, r.2.data] ::
          parseRecordsF (g + 1) (rs2.map rowBytes).flatten := by
      rw [parseRecordsF_succ]
      rw [if_neg (by rw [hne]; exact Bool.false_ne_true)]
      rw [hrec]
      simp
    rw [hstep, ih (g + 1) (by omega), List.map_cons]

/-- Reading back a written predictions file yields the canonical header
and, per row, the NA-filtered target and prediction cells. -/
theorem readCsvTable_writeCsv (rows : List (Cell × String)) :
    readCsvTable (writeCsv rows) =
      some (["target", "prediction"],
        rows.map (fun r => [readCell (r.1.getD ""), readCell r.2])) := by
  unfold readCsvTable
  have hp : parseRecords (writeCsv rows).data =
      ((some ColumnNames.TARGET, ColumnNames.PREDICTION) :: rows).map
        (fun r => [(r.1.getD "").data, r.2.data]) := by
    unfold parseRecords
    exact parseRecordsF_join _ _ (Nat.lt_succ_self _)
  rw [hp]
  simp only [List.map_cons, Option.some.injEq, Prod.mk.injEq]
  refine ⟨rfl, ?_⟩
  rw [List.map_map]
  apply List.map_congr_left
  intro r _
  simp [string_mk_data]

/-- C6 counterexample: `infer_dataset()` can produce an empty prediction
(the model output ends right after a newline), and an empty string does
not survive the CSV round-trip: it is read back as a missing value. -/
theorem claim_C6_counterexample :
    LLMPipeline.infer_dataset (fun _ => "x\n")
        ⟨⟨["question", "target"], [0], [[some "q", some "t"]]⟩⟩ 1 =
      some [(some "t", "")] ∧
    readPairs (writeCsv [(some "t", "")]) = some [(some "t", none)] ∧
    ((some "t", (none : Cell)) ≠ ((some "t" : Cell), some "")) := by
  refine ⟨by rfl, by rfl, by decide⟩

/-- C6 amended: the round-trip preserves the `(target, prediction)` pairs
in order for every predictions table whose present target strings and
whose prediction strings lie outside the CSV reader's NA-token set (in
particular, predictions must be non-empty); a missing target survives as
missing. -/
theorem claim_C6_roundtrip_amended (rows : List (Cell × String))
    (h : ∀ r ∈ rows, (∀ s, r.1 = some s → s ∉ naTokens) ∧ r.2 ∉ naTokens) :
    readPairs (writeCsv rows) = some (rows.map (fun r => (r.1, some r.2))) := by
  unfold readPairs
  rw [readCsvTable_writeCsv]
  show some ((rows.map (fun r => [readCell (r.1.getD ""), readCell r.2])).map
      (fun r => (r.getD 0 none, r.getD 1 none))) =
    some (rows.map (fun r => (r.1, some r.2)))
  simp only [Option.some.injEq, List.map_map]
  apply List.map_congr_left
  intro r hr
  have hcell : readCell (r.1.getD "") = r.1 := by
    cases hr1 : r.1 with
    | none => rfl
    | some s =>
      have hs := (h r hr).1 s hr1
      simp [readCell, hs]
  have hpred : readCell r.2 = some r.2 := by
    have hs := (h r hr).2
    simp [readCell, hs]
  simp [hcell, hpred]

/-- C6 witness: a concrete NA-safe one-row table round-trips. -/
theorem claim_C6_witness :
    readPairs (writeCsv [(some "t", "p")]) = some [(some "t", some "p")] := by
  have h : ∀ r ∈ ([(some "t", "p")] : List (Cell × String)),
      (∀ s, r.1 = some s → s ∉ naTokens) ∧ r.2 ∉ naTokens := by
    intro r hr
    simp only [List.mem_singleton] at hr
    subst hr
    refine ⟨?_, by decide⟩
    intro s hs
    simp only [Option.some.injEq] at hs
    subst hs
    decide
  exact claim_C6_roundtrip_amended [(some "t", "p")] h
